import Mathlib

/-!
Verification development for the `batchScan` repository (`source/pvComm.py`).

The Python class `pvComm` is a thin layer over EPICS process variables
(PVs): each method reads or writes a handful of PVs, optionally sleeps in a
bounded polling loop, and appends timestamped lines to a plain-text log
file.  We embed the methods shallowly:

* PV reads appearing in a method become explicit inputs (a small state
  record, or a function from call index to value for reads inside loops);
* PV writes, sleeps and log emissions become an explicit list of `Event`s,
  so ordering and frame claims are about the event trace;
* Python floats are modelled as rationals; `np.round(x, 2)` and the
  builtin `round(x, 2)` round half to even, modelled by `evenRound`;
* `%.2f` / `%.3f` formatting is modelled by `decFmt`;
* `time.time()` samples taken by `centerPiezoXY` are modelled as a
  sequence `ts : Nat -> Rat`, and each successive reading of the
  `xztp_motor_ready` PV as `status : Nat -> String`.
-/

namespace pvComm

/-- Logical PV names used by the methods of `pvComm`, as registered in
`self.pvs`. -/
inductive PVId where
  | filesys
  | subdir
  | netCDF_status
  | netCDF_save
  | netCDF_stp
  | mcs_stp
  | xmap_stp
  | mcs_status
  | xmap_status
  | wait
  | abort
  | BDA_pos
  | sm_rot_Act
  | tomo_rot_Act
  | x_motorMode
  | y_motorMode
  | x_center_Rqs
  | y_center_Rqs
  | x_updatecenter
  | y_updatecenter
  | piezo_xCenter
  | piezo_yCenter
  | x_piezo_val
  | y_piezo_val
  | xztp_motor_ready
  deriving DecidableEq

/-- Observable effects of a `pvComm` method: a `pv.put`, a
`put_callback`, a PV read, a `time.sleep` of a given duration in seconds,
or a line written through `self.logger`. -/
inductive Event where
  | put (pv : PVId) (v : ℚ)
  | putCb (pv : PVId) (v : ℚ)
  | read (pv : PVId)
  | sleep (d : ℚ)
  | log (line : String)
  deriving DecidableEq

/-- The PV values read by `resetDetector` and `detectorDone` during one
run: the netCDF writer status string, and the two boolean `Acquiring`
flags (`9idbXMAP:Acquiring`, `9idbBNP:3820:Acquiring`; truthy while the
device is acquiring). -/
structure DetSt where
  netCDF_status : String
  xmap_status : Bool
  mcs_status : Bool
  deriving DecidableEq

/-- Embeds `scanPause`: `self.pvs[ %wait% ].put_callback(1)` (the literal
value 1, not an increment of the current value). -/
def scanPause : List Event := [Event.putCb PVId.wait 1]

/-- Embeds `scanResume`: `self.pvs[ %wait% ].put_callback(0)` (the literal
value 0, not a decrement of the current value). -/
def scanResume : List Event := [Event.putCb PVId.wait 0]

/-- Embeds `scanAbort`: `put_callback(1)` on the abort PV. -/
def scanAbort : List Event := [Event.putCb PVId.abort 1]

/-- Embeds `detectorDone`: reads the two `Acquiring` flags into
`xmap_done` and `mcs_done` and returns
`False if all([not xmap_done, not mcs_done]) else True`.  Note that this
returns `false` exactly when both `Acquiring` flags are inactive, which is
the opposite of its docstring (True if idle). -/
def detectorDone (s : DetSt) : Bool :=
  let xmap_done := s.xmap_status
  let mcs_done := s.mcs_status
  if !xmap_done && !mcs_done then false else true

/-- Embeds `resetDetector`, returning the Python return value together
with the trace of hardware effects.  The two leading reads of
`netCDF_status` are the read inside the `print` call and the read in the
`if` condition; the conditional block saves the netCDF data and stops the
file write; then the MCS and XMAP stop commands are issued, the code
sleeps 0.2 s, and `detectorDone` reads the two status flags.  On the
`detectorDone` branch the method calls `scanResume` and returns 1,
otherwise it returns -1. -/
def resetDetector (s : DetSt) : Int × List Event :=
  let tr1 : List Event := [Event.read PVId.netCDF_status, Event.read PVId.netCDF_status]
  let tr2 : List Event :=
    if s.netCDF_status = "Writing" then
      [Event.put PVId.netCDF_save 1, Event.sleep (mkRat 1 10), Event.put PVId.netCDF_stp 1]
    else []
  let tr3 : List Event := [Event.put PVId.mcs_stp 1, Event.put PVId.xmap_stp 1, Event.sleep (mkRat 1 5)]
  let tr4 : List Event := [Event.read PVId.xmap_status, Event.read PVId.mcs_status]
  if detectorDone s then (1, tr1 ++ tr2 ++ tr3 ++ tr4 ++ scanResume)
  else (-1, tr1 ++ tr2 ++ tr3 ++ tr4)

/-- Value of the scan wait PV (`9idbBNP:scan2.WAIT`) after replaying an
event trace from initial value `w0`: each `put` or `put_callback`
targeting the wait PV overwrites it, every other event leaves it
unchanged. -/
def waitAfter (w0 : ℚ) (tr : List Event) : ℚ :=
  tr.foldl
    (fun w e =>
      match e with
      | Event.put PVId.wait v => v
      | Event.putCb PVId.wait v => v
      | _ => w) w0

/-- The maximal event sequence a run of `resetDetector` can produce, in
source order; every actual trace is a sublist of it. -/
def resetCanonicalTrace : List Event :=
  [Event.read PVId.netCDF_status, Event.read PVId.netCDF_status,
   Event.put PVId.netCDF_save 1, Event.sleep (mkRat 1 10), Event.put PVId.netCDF_stp 1,
   Event.put PVId.mcs_stp 1, Event.put PVId.xmap_stp 1, Event.sleep (mkRat 1 5),
   Event.read PVId.xmap_status, Event.read PVId.mcs_status,
   Event.putCb PVId.wait 0]

/-- A file handle as `logger` sees it: the path it was opened at and
whether it has been closed. -/
structure FileHandle where
  path : String
  closed : Bool
  deriving DecidableEq

/-- The state `logger` touches: `self.logfilepath`, the current handle
`self.logfid`, and the on-disk contents of the log file. -/
structure LoggerSt where
  logfilepath : String
  logfid : FileHandle
  logfileContents : String
  deriving DecidableEq

/-- Embeds `logger`: if `self.logfid.closed` the handle is reopened at
`self.logfilepath` in append mode (`open(self.logfilepath, %a%)`), then
`msg` is written and flushed.  Returns the new state together with the
handle the write went to.  Append mode is reflected by extending the
existing on-disk contents.  The mirror write to `sys.stdout` has no
bearing on the log file and is not modelled. -/
def logger (st : LoggerSt) (msg : String) : LoggerSt × FileHandle :=
  let fid := if st.logfid.closed then { path := st.logfilepath, closed := false } else st.logfid
  ({ st with logfid := fid, logfileContents := st.logfileContents ++ msg }, fid)

/-- Rounds a rational to the nearest integer, ties to even: the rounding
used by both `np.round` and the Python builtin `round`. -/
def evenRound (q : ℚ) : ℤ :=
  if q - ⌊q⌋ < 1/2 then ⌊q⌋
  else if 1/2 < q - ⌊q⌋ then ⌊q⌋ + 1
  else if Even ⌊q⌋ then ⌊q⌋ else ⌊q⌋ + 1

/-- Embeds `np.round(x, 2)` (and `round(x, 2)`): round half to even at two
decimal places. -/
def round2 (q : ℚ) : ℚ := (evenRound (q * 100) : ℚ) / 100

/-- Positions of the motors read by the position getters. -/
structure PVVals where
  BDA_pos : ℚ
  sm_rot_Act : ℚ
  tomo_rot_Act : ℚ
  deriving DecidableEq

/-- Embeds `getBDAx`: `np.round(self.pvs[ %BDA_pos% ].pv.value, 2)`. -/
def getBDAx (s : PVVals) : ℚ := round2 s.BDA_pos

/-- Embeds `getSMAngle`: `np.round(self.pvs[ %sm_rot_Act% ].pv.value, 2)`. -/
def getSMAngle (s : PVVals) : ℚ := round2 s.sm_rot_Act

/-- Embeds `getTomoAngle`: `np.round(self.pvs[ %tomo_rot_Act% ].pv.value, 2)`. -/
def getTomoAngle (s : PVVals) : ℚ := round2 s.tomo_rot_Act

/-- Left-pads a digit string with zeros to width `w`. -/
def padZeros (w : ℕ) (s : String) : String :=
  String.mk (List.replicate (w - s.length) '0') ++ s

/-- Embeds Python `%.Nf` formatting of a (rational-modelled) float:
round half to even at `prec` decimal places and print with exactly `prec`
fractional digits. -/
def decFmt (prec : ℕ) (q : ℚ) : String :=
  let scale : ℤ := (10 : ℤ) ^ prec
  let n : ℤ := evenRound (q * (scale : ℚ))
  let sign := if n < 0 then "-" else ""
  let ipart := n.natAbs / scale.toNat
  let fpart := n.natAbs % scale.toNat
  sign ++ toString ipart ++ "." ++ padZeros prec (toString fpart)

/-- Embeds `blockBeamBDA`: computes `bda_pos = BDA - 500`, logs
`%s: Move BDA to block position at: %.3f\n` with the current timestamp
`t`, and issues `put_callback(bda_pos)` on the BDA position PV. -/
def blockBeamBDA (t : String) (BDA : ℚ) : List Event :=
  let bda_pos := BDA - 500
  [Event.log (t ++ ": Move BDA to block position at: " ++ decFmt 3 bda_pos ++ "\n"),
   Event.putCb PVId.BDA_pos bda_pos]

/-- Embeds `openBeamBDA`: logs `%s: Move BDA to open position at: %.3f\n`
and issues `put_callback(BDA)` on the BDA position PV. -/
def openBeamBDA (t : String) (BDA : ℚ) : List Event :=
  [Event.log (t ++ ": Move BDA to open position at: " ++ decFmt 3 BDA ++ "\n"),
   Event.putCb PVId.BDA_pos BDA]

/-- Embeds `changeTomoRotate`: reads the current angle, rounds it, logs
`%s; Changing tomo rotation angle from to %.2f to %.2f\n` (note the
semicolon after the timestamp in the source format string), and issues
`put_callback(theta)` on the tomo rotation PV. -/
def changeTomoRotate (t : String) (s : PVVals) (theta : ℚ) : List Event :=
  let curr_angle := round2 s.tomo_rot_Act
  [Event.read PVId.tomo_rot_Act,
   Event.log (t ++ "; Changing tomo rotation angle from to " ++ decFmt 2 curr_angle
      ++ " to " ++ decFmt 2 theta ++ "\n"),
   Event.putCb PVId.tomo_rot_Act theta]

/-- Embeds `changeSMRotate`: reads the current angle (`curr_value`),
rounds it, logs `%s; Changing sample rotation angle from to %.2f to
%.2f\n` (semicolon separator), and issues `put_callback(theta)` on the
sample rotation PV. -/
def changeSMRotate (t : String) (s : PVVals) (theta : ℚ) : List Event :=
  let curr_angle := round2 s.sm_rot_Act
  [Event.read PVId.sm_rot_Act,
   Event.log (t ++ "; Changing sample rotation angle from to " ++ decFmt 2 curr_angle
      ++ " to " ++ decFmt 2 theta ++ "\n"),
   Event.putCb PVId.sm_rot_Act theta]

/-- Embeds `changeXYcombinedMode`: logs `%s; Changing XY scan mode to
combined motion\n` (semicolon separator) and puts 0 to both motor-mode
PVs. -/
def changeXYcombinedMode (t : String) : List Event :=
  [Event.log (t ++ "; Changing XY scan mode to combined motion\n"),
   Event.put PVId.x_motorMode 0, Event.put PVId.y_motorMode 0]

/-- Embeds `changeXtoCombinedMode`: logs `%s; Changing XY scan mode to
combined motion\n` (semicolon separator) and puts 0 to the x motor-mode
PV. -/
def changeXtoCombinedMode (t : String) : List Event :=
  [Event.log (t ++ "; Changing XY scan mode to combined motion\n"),
   Event.put PVId.x_motorMode 0]

/-- Embeds `changeXtoPiezolMode`: logs `%s: Changing X scan mode to Piezo
only\n` (colon separator) and puts 2 to the x motor-mode PV. -/
def changeXtoPiezolMode (t : String) : List Event :=
  [Event.log (t ++ ": Changing X scan mode to Piezo only\n"),
   Event.put PVId.x_motorMode 2]

/-- Embeds `logCryoTemp`: reads the five cryo temperature PVs (`temps`
maps each PV name to its value), renders
`%s: %.2f` for each in source order, joins them with `, `, and logs
`getCurrentTime() + ': ' + s + '\n'`. -/
def logCryoTemp (t : String) (temps : String → ℚ) : List Event :=
  let temp_pv := ["CryoCon1:In_1", "CryoCon1:In_2", "CryoCon1:In_3",
                  "CryoCon3:In_2", "CryoCon3:Loop_2"]
  let s := String.intercalate (", ") (temp_pv.map (fun n => n ++ ": " ++ decFmt 2 (temps n)))
  [Event.log (t ++ ": " ++ s ++ "\n")]

/-- A log line of the exact shape the specification states: the current
timestamp, the separator `: `, the message, and a terminating newline. -/
def isStdLogLine (t line : String) : Prop :=
  ∃ m, line = t ++ ": " ++ m ++ "\n"

/-- The log lines contained in an event trace, in emission order. -/
def logLines (tr : List Event) : List String :=
  tr.foldr (fun e acc => match e with | Event.log line => line :: acc | _ => acc) []

/-- Embeds `motorReady_XZTP` for the `n`-th read of the
`xztp_motor_ready` PV during a run: returns `1` if the status string read
is `Ready`, else `0`. -/
def motorReady_XZTP (status : ℕ → String) (n : ℕ) : ℕ :=
  if status n = "Ready" then 1 else 0

/-- The value the loop variable `t_diff` holds when the `while` condition
of `centerPiezoXY` is evaluated for the `k`-th time: `0` at the first
check, and `ts k - ts 0` afterwards (sample `ts 0` is `tin`, sample
`ts k` the reading taken inside iteration `k-1`, before the trailing
0.2 s sleep of that iteration). -/
def tdiffAt (ts : ℕ → ℚ) (k : ℕ) : ℚ :=
  if k = 0 then 0 else ts k - ts 0

/-- Embeds the `while` loop of `centerPiezoXY` with explicit fuel:
argument `k` counts condition checks (equivalently `motorReady_XZTP`
calls so far), `t_diff` is the current value of the Python variable.
The condition `(not self.motorReady_XZTP()) & (t_diff < MAX_WAIT_TIME)`
re-enters the body, which updates `t_diff := time.time() - tin` (sample
`ts (k+1)`) and sleeps 0.2 s; otherwise the loop exits and the index of
the failing check is returned.  `none` means the fuel ran out before the
loop exited. -/
def centerLoopAux (status : ℕ → String) (ts : ℕ → ℚ) :
    ℕ → ℕ → ℚ → Option ℕ
  | 0, _, _ => none
  | fuel + 1, k, t_diff =>
    if motorReady_XZTP status k = 0 ∧ t_diff < 5 then
      centerLoopAux status ts fuel (k + 1) (ts (k + 1) - ts 0)
    else some k

/-- Embeds `centerPiezoXY` (its control flow and return value): after the
initial puts to the piezo centering PVs and the log lines, the polling
loop runs with `MAX_WAIT_TIME = 5` and the method returns a fresh
`self.motorReady_XZTP()` reading, which is read number `k + 1` when the
loop exited at condition check `k`. -/
def centerPiezoXY (status : ℕ → String) (ts : ℕ → ℚ) (fuel : ℕ) : Option ℕ :=
  match centerLoopAux status ts fuel 0 0 with
  | some k => some (motorReady_XZTP status (k + 1))
  | none => none

/-- Wall-clock time elapsed since `tin` at the moment the loop condition
check number `k` is evaluated: check 0 happens immediately after `tin`,
and every later check happens after the 0.2 s sleep that follows time
sample `ts k`. -/
def elapsedAtExit (ts : ℕ → ℚ) (k : ℕ) : ℚ :=
  if k = 0 then 0 else (ts k - ts 0) + 1/5

/-- A concrete status sequence on which the XZTP motor never becomes
ready. -/
def statusNeverReady : ℕ → String := fun _ => "NotReady"

/-- A concrete status sequence on which the XZTP motor is ready at every
read. -/
def statusAlwaysReady : ℕ → String := fun _ => "Ready"

/-- A concrete timeline on which consecutive `time.time()` samples are
exactly 0.2 s apart. -/
def tsEvery : ℕ → ℚ := fun k => (k : ℚ) / 5

/-- The values written (by `put` or `put_callback`) to a given PV by an
event trace, in order. -/
def putsTo (pv : PVId) (tr : List Event) : List ℚ :=
  tr.foldr
    (fun e acc =>
      match e with
      | Event.put p v => if p = pv then v :: acc else acc
      | Event.putCb p v => if p = pv then v :: acc else acc
      | _ => acc) []

/-- Embeds `setXYcenter`: logs the update announcement (the source
concatenates two adjacent string literals, yielding `center ofthe
scan.`), reads the two requested center positions, puts their
two-decimal roundings (the builtin `round(x, 2)`) to the update-center
PVs, and logs the two value lines, whose format strings carry a space
before the newline.  `t1`, `t2`, `t3` are the three successive
`getCurrentTime()` readings. -/
def setXYcenter (t1 t2 t3 : String) (x_rqs y_rqs : ℚ) : List Event :=
  [Event.log (t1 ++ ": Update the current position as the center ofthe scan.\n"),
   Event.read PVId.x_center_Rqs, Event.read PVId.y_center_Rqs,
   Event.put PVId.x_updatecenter (round2 x_rqs),
   Event.put PVId.y_updatecenter (round2 y_rqs),
   Event.log (t2 ++ ": X_center valute: " ++ decFmt 2 x_rqs ++ " \n"),
   Event.log (t3 ++ ": Y_center valute: " ++ decFmt 2 y_rqs ++ " \n")]

/-- Embeds the effect trace of `centerPiezoXY` (its control flow and
return value are embedded separately by `centerPiezoXY`): the centering
announcement, the two puts that trigger the piezo centering, the two
piezo-value reads with their log lines, and then one waiting line per
loop iteration that ran; `t1`, `t2`, `t3` are the preamble
`getCurrentTime()` readings and `waitstamps` those of the loop
iterations. -/
def centerPiezoXY_logs (t1 t2 t3 : String) (xval yval : ℚ)
    (waitstamps : List String) : List Event :=
  [Event.log (t1 ++ ": Centering piezoX and piezoY.\n"),
   Event.put PVId.piezo_xCenter 1, Event.put PVId.piezo_yCenter 1,
   Event.read PVId.x_piezo_val,
   Event.log (t2 ++ ": Piezo xcenter value: " ++ decFmt 2 xval ++ "\n"),
   Event.read PVId.y_piezo_val,
   Event.log (t3 ++ ": Piezo ycenter value: " ++ decFmt 2 yval ++ "\n")]
  ++ waitstamps.map (fun tw => Event.log (tw ++ ": Waiting for XZTPX to be ready.\n"))

/-- Embeds `assignSinglePV`: one put of `pvval` to the registry key
`pvstr` (returned as a name-value pair, since the key is a dynamic
string rather than a fixed PV) and the corresponding log line. -/
def assignSinglePV (t : String) (pvstr : String) (pvval : ℚ) :
    (String × ℚ) × List String :=
  ((pvstr, pvval), [t ++ ": Change " ++ pvstr ++ " to " ++ decFmt 3 pvval ++ "\n"])

/-- Embeds `assignPosValToPVs`: zips the key and value lists as the
source `zip(pvstr, pvval)` does, puts each value to its key (returned as
name-value pairs) and logs one line per pair; `t n` is the
`getCurrentTime()` reading of iteration `n`. -/
def assignPosValToPVs (t : ℕ → String) (pvstr : List String) (pvval : List ℚ) :
    List (String × ℚ) × List String :=
  let pairs := pvstr.zip pvval
  (pairs,
   pairs.enum.map
     (fun p => t p.1 ++ ": Change " ++ p.2.1 ++ " to " ++ decFmt 3 p.2.2 ++ "\n"))

end pvComm

namespace pvComm

/-- Replaying an event trace split into two parts replays the second part
from the wait value left by the first. -/
theorem waitAfter_append (w0 : ℚ) (a b : List Event) :
    waitAfter w0 (a ++ b) = waitAfter (waitAfter w0 a) b := by
  simp [waitAfter, List.foldl_append]

/-- Half-to-even rounding moves a rational by at most one half. -/
theorem abs_evenRound_sub_le (q : ℚ) : |(evenRound q : ℚ) - q| ≤ 1/2 := by
  have h1 : (⌊q⌋ : ℚ) ≤ q := Int.floor_le q
  have h2 : q < ⌊q⌋ + 1 := Int.lt_floor_add_one q
  unfold evenRound
  split
  · next h => rw [abs_le]; constructor <;> linarith
  · next h =>
    split
    · next h3 => rw [abs_le]; push_cast; constructor <;> linarith
    · next h3 => split <;> (rw [abs_le]; push_cast; constructor <;> linarith)

/-- One hundred times a two-decimal rounding is the underlying integer. -/
theorem round2_mul_hundred (q : ℚ) : round2 q * 100 = (evenRound (q * 100) : ℚ) := by
  unfold round2; field_simp

/-- Two-decimal rounding moves a rational by at most half of 0.01. -/
theorem abs_round2_sub_le (q : ℚ) : |round2 q - q| ≤ 1/200 := by
  have h := abs_evenRound_sub_le (q * 100)
  have he : round2 q - q = ((evenRound (q * 100) : ℚ) - q * 100) / 100 := by
    unfold round2; ring
  rw [he, abs_div, show |(100 : ℚ)| = 100 from by norm_num]
  calc |(evenRound (q * 100) : ℚ) - q * 100| / 100 ≤ (1/2) / 100 := by gcongr
    _ = 1/200 := by norm_num

/-- C1: the code contradicts the claim (and its own docstrings).  When
both `Acquiring` flags are inactive, i.e. the acquisition subsystem is
idle after the stop commands and the delay, `detectorDone` returns
`false` and `resetDetector` returns -1; when a flag is still active it
returns 1.  The claim (and the source docstrings) say the opposite. -/
theorem resetDetector_idle_failing_input :
    (resetDetector ⟨"Done", false, false⟩).1 = -1 ∧
    (resetDetector ⟨"Done", true, false⟩).1 = 1 ∧
    detectorDone ⟨"Done", false, false⟩ = false ∧
    detectorDone ⟨"Done", true, false⟩ = true := by
  decide

/-- C3: on every run the trace of `resetDetector` is a sublist of the
canonical sequence (netCDF status reads, netCDF save and file-write stop,
MCS stop, XMAP stop, the 0.2 s delay, the idle-status reads, scan
resume), so no step is issued out of that order, and the MCS stop, XMAP
stop, delay and idle-status reads occur in that order on every run. -/
theorem resetDetector_trace_order (s : DetSt) :
    List.Sublist (resetDetector s).2 resetCanonicalTrace ∧
    List.Sublist
      [Event.put PVId.mcs_stp 1, Event.put PVId.xmap_stp 1, Event.sleep (mkRat 1 5),
       Event.read PVId.xmap_status, Event.read PVId.mcs_status]
      (resetDetector s).2 := by
  cases hd : detectorDone s <;> by_cases hw : s.netCDF_status = "Writing" <;>
    simp only [resetDetector, resetCanonicalTrace, scanResume, hd, hw,
      if_true, if_false, ite_true, ite_false, Bool.false_eq_true, if_neg, List.append_assoc,
      List.cons_append, List.nil_append] <;>
    decide

/-- C10: `resetDetector` returns 1 or -1; it writes to the scan wait PV
exactly when it succeeds, in which case the single write is the
`scanResume` value 0; on failure the wait PV is untouched and keeps its
prior value. -/
theorem resetDetector_resume_iff_success (s : DetSt) (w0 : ℚ) :
    ((resetDetector s).1 = 1 ∨ (resetDetector s).1 = -1) ∧
    ((resetDetector s).1 = 1 ↔ Event.putCb PVId.wait 0 ∈ (resetDetector s).2) ∧
    putsTo PVId.wait (resetDetector s).2 = (if (resetDetector s).1 = 1 then [0] else []) ∧
    waitAfter w0 (resetDetector s).2 = (if (resetDetector s).1 = 1 then 0 else w0) := by
  cases hd : detectorDone s <;> by_cases hw : s.netCDF_status = "Writing" <;>
    simp [resetDetector, scanResume, putsTo, waitAfter, hd, hw]

/-- C9: `scanPause` and `scanResume` write the constants 1 and 0 to the
scan wait PV (absolute assignments, independent of the prior value `w0`),
each is idempotent, and a single `scanResume` clears the pause no matter
how many `scanPause` calls preceded it. -/
theorem scanPause_scanResume_absolute_idempotent (w0 : ℚ) (n : ℕ) :
    scanPause = [Event.putCb PVId.wait 1] ∧
    scanResume = [Event.putCb PVId.wait 0] ∧
    waitAfter w0 scanPause = 1 ∧
    waitAfter w0 scanResume = 0 ∧
    waitAfter w0 (scanPause ++ scanPause) = waitAfter w0 scanPause ∧
    waitAfter w0 (scanResume ++ scanResume) = waitAfter w0 scanResume ∧
    waitAfter w0 ((List.replicate n scanPause).flatten ++ scanResume) = 0 := by
  refine ⟨rfl, rfl, by simp [waitAfter, scanPause], by simp [waitAfter, scanResume],
    by simp [waitAfter, scanPause], by simp [waitAfter, scanResume], ?_⟩
  rw [waitAfter_append]
  simp [waitAfter, scanResume]

/-- C6: every `logger` call writes through an open handle: a closed
handle is reopened at the stored `logfilepath` (in append mode, so the
prior contents survive) before the write, the message is appended and
flushed, and the stored path is unchanged. -/
theorem logger_open_append_invariant (st : LoggerSt) (msg : String) :
    (logger st msg).2.closed = false ∧
    (logger st msg).1.logfid = (logger st msg).2 ∧
    (logger st msg).2.path = (if st.logfid.closed then st.logfilepath else st.logfid.path) ∧
    (logger st msg).1.logfileContents = st.logfileContents ++ msg ∧
    (logger st msg).1.logfilepath = st.logfilepath := by
  cases hc : st.logfid.closed <;> simp [logger, hc]

/-- C7: `blockBeamBDA` writes exactly `BDA - 500` and `openBeamBDA`
writes exactly `BDA`, both as a single write to the BDA position PV and
to no other PV. -/
theorem blockBeamBDA_openBeamBDA_puts (t : String) (BDA : ℚ) (pv : PVId) :
    putsTo pv (blockBeamBDA t BDA) = (if pv = PVId.BDA_pos then [BDA - 500] else []) ∧
    putsTo pv (openBeamBDA t BDA) = (if pv = PVId.BDA_pos then [BDA] else []) := by
  by_cases h : pv = PVId.BDA_pos <;>
    simp [putsTo, blockBeamBDA, openBeamBDA, h, eq_comm]

/-- Unfolding equation for one step of the polling loop. -/
theorem centerLoopAux_succ (status : ℕ → String) (ts : ℕ → ℚ) (fuel k : ℕ) (t : ℚ) :
    centerLoopAux status ts (fuel + 1) k t =
      if motorReady_XZTP status k = 0 ∧ t < 5 then
        centerLoopAux status ts fuel (k + 1) (ts (k + 1) - ts 0)
      else some k := rfl

/-- When every sleep advances the clock by at least 0.2 s, sample `k + 1`
is at least `k / 5` seconds after `tin`. -/
theorem ts_gain (ts : ℕ → ℚ) (hmono : ∀ k, ts k ≤ ts (k + 1))
    (hsleep : ∀ k, 1 ≤ k → ts k + 1/5 ≤ ts (k + 1)) :
    ∀ k : ℕ, (k : ℚ) / 5 ≤ ts (k + 1) - ts 0 := by
  intro k
  induction k with
  | zero => simpa using sub_nonneg.mpr (hmono 0)
  | succ k ih =>
    have hs := hsleep (k + 1) (by omega)
    push_cast
    push_cast at ih
    linarith

/-- Bounded-iteration invariant for the polling loop: entered at check
`j` with at least `27 - j` fuel, the loop exits at some check `r ≤ 26`,
the loop condition is false at `r`, and it was true at every check in
between. -/
theorem centerLoop_term_aux (status : ℕ → String) (ts : ℕ → ℚ)
    (hmono : ∀ k, ts k ≤ ts (k + 1))
    (hsleep : ∀ k, 1 ≤ k → ts k + 1/5 ≤ ts (k + 1)) :
    ∀ fuel j, 1 ≤ j → j ≤ 26 → 27 ≤ j + fuel →
      ∃ r, r ≤ 26 ∧
        centerLoopAux status ts fuel j (ts j - ts 0) = some r ∧
        ¬(motorReady_XZTP status r = 0 ∧ tdiffAt ts r < 5) ∧
        ∀ i, j ≤ i → i < r → motorReady_XZTP status i = 0 ∧ tdiffAt ts i < 5 := by
  intro fuel
  induction fuel with
  | zero => intro j h1 h2 h3; omega
  | succ fuel ih =>
    intro j h1 h2 h3
    rw [centerLoopAux_succ]
    by_cases hc : motorReady_XZTP status j = 0 ∧ ts j - ts 0 < 5
    · have hlow : ((j - 1 : ℕ) : ℚ) / 5 ≤ ts j - ts 0 := by
        have hg := ts_gain ts hmono hsleep (j - 1)
        rwa [Nat.sub_add_cancel h1] at hg
      have hj : j ≤ 25 := by
        by_contra hj26
        have hj' : j = 26 := by omega
        rw [hj'] at hlow
        norm_num at hlow
        have hlt := hc.2
        rw [hj'] at hlt
        linarith
      rw [if_pos hc]
      obtain ⟨r, hr, hrun, hexit, hall⟩ := ih (j + 1) (by omega) (by omega) (by omega)
      refine ⟨r, hr, hrun, hexit, ?_⟩
      intro i hji hir
      rcases Nat.lt_or_ge i (j + 1) with hlt | hge
      · have hij : i = j := by omega
        subst hij
        refine ⟨hc.1, ?_⟩
        have ht : tdiffAt ts i = ts i - ts 0 := by
          unfold tdiffAt; rw [if_neg (by omega : ¬ i = 0)]
        rw [ht]; exact hc.2
      · exact hall i hge hir
    · rw [if_neg hc]
      refine ⟨j, h2, rfl, ?_, ?_⟩
      · have ht : tdiffAt ts j = ts j - ts 0 := by
          unfold tdiffAt; rw [if_neg (by omega : ¬ j = 0)]
        rw [ht]; exact hc
      · intro i hji hij; omega

/-- C5 (amended): when every sleep advances the clock by at least its
0.2 s duration, the polling loop of `centerPiezoXY` always terminates:
with fuel 27 it exits at some condition check `r ≤ 26` (so at most 26
iterations run), the loop condition (motor not ready and measured
`t_diff` below the 5 s budget) is false at the exit check, and it held at
every earlier check.  Note `t_diff` is sampled before each trailing
sleep, so the wall-clock wait can still exceed the budget. -/
theorem centerPiezoXY_loop_terminates (status : ℕ → String) (ts : ℕ → ℚ)
    (hmono : ∀ k, ts k ≤ ts (k + 1))
    (hsleep : ∀ k, 1 ≤ k → ts k + 1/5 ≤ ts (k + 1)) :
    ∃ r, r ≤ 26 ∧
      centerLoopAux status ts 27 0 0 = some r ∧
      ¬(motorReady_XZTP status r = 0 ∧ tdiffAt ts r < 5) ∧
      ∀ i, i < r → motorReady_XZTP status i = 0 ∧ tdiffAt ts i < 5 := by
  rw [show (27 : ℕ) = 26 + 1 from rfl, centerLoopAux_succ]
  by_cases hc : motorReady_XZTP status 0 = 0 ∧ (0 : ℚ) < 5
  · rw [if_pos hc]
    obtain ⟨r, hr, hrun, hexit, hall⟩ :=
      centerLoop_term_aux status ts hmono hsleep 26 1 (by omega) (by omega) (by omega)
    refine ⟨r, hr, hrun, hexit, ?_⟩
    intro i hir
    rcases Nat.eq_zero_or_pos i with rfl | hpos
    · exact ⟨hc.1, by simp [tdiffAt]⟩
    · exact hall i (by omega) hir
  · rw [if_neg hc]
    refine ⟨0, by omega, rfl, ?_, ?_⟩
    · simpa [tdiffAt] using hc
    · intro i hi; omega

/-- Witness for C5: on the concrete always-ready run with 0.2 s sample
spacing the hypotheses hold and the loop exits within the bound. -/
theorem centerPiezoXY_loop_terminates_witness :
    ((∀ k, tsEvery k ≤ tsEvery (k + 1)) ∧
      (∀ k, 1 ≤ k → tsEvery k + 1/5 ≤ tsEvery (k + 1))) ∧
    ∃ r, r ≤ 26 ∧
      centerLoopAux statusAlwaysReady tsEvery 27 0 0 = some r ∧
      ¬(motorReady_XZTP statusAlwaysReady r = 0 ∧ tdiffAt tsEvery r < 5) ∧
      ∀ i, i < r → motorReady_XZTP statusAlwaysReady i = 0 ∧ tdiffAt tsEvery i < 5 := by
  have hmono : ∀ k, tsEvery k ≤ tsEvery (k + 1) := by
    intro k; unfold tsEvery; push_cast; linarith
  have hsleep : ∀ k, 1 ≤ k → tsEvery k + 1/5 ≤ tsEvery (k + 1) := by
    intro k hk; unfold tsEvery; push_cast; linarith
  exact ⟨⟨hmono, hsleep⟩,
    centerPiezoXY_loop_terminates statusAlwaysReady tsEvery hmono hsleep⟩

/-- C5 counterexample to the claim as stated: on a run where the motor
never reports ready and consecutive time samples are exactly 0.2 s apart,
the loop exits at check 25, which takes place 0.2 s after time sample 25
(the final sleep follows the final `t_diff` sample), so the wait lasts
26/5 = 5.2 s: strictly more than the fixed 5-second budget. -/
theorem centerPiezoXY_wait_exceeds_budget :
    centerLoopAux statusNeverReady tsEvery 27 0 0 = some 25 ∧
    elapsedAtExit tsEvery 25 = 26/5 ∧
    (5 : ℚ) < 26/5 := by
  refine ⟨?_, ?_, by norm_num⟩
  · norm_num [centerLoopAux, motorReady_XZTP, statusNeverReady, tsEvery]
    decide
  · norm_num [elapsedAtExit, tsEvery]

/-- C2: whenever the polling loop of `centerPiezoXY` exits, at whichever
check `k` and for whichever reason (ready or budget expired), the method
returns the fresh `motorReady_XZTP` reading taken after the loop (read
`k + 1`): 1 exactly if the motor-ready PV then reads `Ready`, 0
otherwise.  The return value carries no record of why the loop exited. -/
theorem centerPiezoXY_returns_postloop_ready (status : ℕ → String) (ts : ℕ → ℚ)
    (fuel k : ℕ) (h : centerLoopAux status ts fuel 0 0 = some k) :
    centerPiezoXY status ts fuel = some (motorReady_XZTP status (k + 1)) ∧
    (motorReady_XZTP status (k + 1) = 1 ↔ status (k + 1) = "Ready") ∧
    (motorReady_XZTP status (k + 1) = 0 ↔ ¬ status (k + 1) = "Ready") := by
  refine ⟨?_, ?_, ?_⟩
  · unfold centerPiezoXY; rw [h]
  · unfold motorReady_XZTP; by_cases hs : status (k + 1) = "Ready" <;> simp [hs]
  · unfold motorReady_XZTP; by_cases hs : status (k + 1) = "Ready" <;> simp [hs]

/-- Witness for C2: on the concrete always-ready run the loop exits at
check 0 and the method returns the fresh reading taken at read 1. -/
theorem centerPiezoXY_returns_postloop_ready_witness :
    centerLoopAux statusAlwaysReady tsEvery 27 0 0 = some 0 ∧
    (centerPiezoXY statusAlwaysReady tsEvery 27 =
        some (motorReady_XZTP statusAlwaysReady 1) ∧
      (motorReady_XZTP statusAlwaysReady 1 = 1 ↔ statusAlwaysReady 1 = "Ready") ∧
      (motorReady_XZTP statusAlwaysReady 1 = 0 ↔ ¬ statusAlwaysReady 1 = "Ready")) := by
  have h : centerLoopAux statusAlwaysReady tsEvery 27 0 0 = some 0 := by
    rw [show (27 : ℕ) = 26 + 1 from rfl, centerLoopAux_succ]
    simp [motorReady_XZTP, statusAlwaysReady]
  exact ⟨h, centerPiezoXY_returns_postloop_ready statusAlwaysReady tsEvery 27 0 h⟩

/-- A line that starts with the timestamp followed by a semicolon is not
of the claimed form `<timestamp>: <message>\n`: the character after the
timestamp would have to be a colon. -/
theorem ne_std_of_semicolon (t rest line : String)
    (hline : line = t ++ ("; " ++ rest)) : ¬ isStdLogLine t line := by
  rintro ⟨m, hm⟩
  rw [hline] at hm
  have hd := congrArg String.data hm
  simp only [String.data_append, List.append_assoc] at hd
  have hd2 := List.append_cancel_left hd
  simp only [List.cons_append, List.nil_append] at hd2
  injection hd2 with h1 h2
  exact absurd h1 (by decide)

/-- C4 counterexample: the line `changeTomoRotate` emits at timestamp
`T` with both angles 0 does not have the claimed form
`<timestamp>: <message>\n` — the source format string puts a semicolon,
not a colon, after the timestamp. -/
theorem changeTomoRotate_line_not_colon_form :
    ¬ isStdLogLine ("T") ((logLines (changeTomoRotate ("T") ⟨0, 0, 0⟩ 0)).headD ("")) := by
  apply ne_std_of_semicolon ("T")
    ("Changing tomo rotation angle from to "
      ++ (decFmt 2 (round2 0) ++ (" to " ++ (decFmt 2 0 ++ "\n"))))
  rw [show (logLines (changeTomoRotate ("T") ⟨0, 0, 0⟩ 0)).headD ("") =
      "T" ++ "; Changing tomo rotation angle from to " ++ decFmt 2 (round2 0)
        ++ " to " ++ decFmt 2 0 ++ "\n" from rfl]
  rw [show ("; Changing tomo rotation angle from to " : String)
      = "; " ++ "Changing tomo rotation angle from to " from rfl]
  simp only [String.append_assoc]

/-- Prepending a log event prepends its line. -/
theorem logLines_cons_log (l : String) (tr : List Event) :
    logLines (Event.log l :: tr) = l :: logLines tr := rfl

/-- Log lines of a concatenated trace are the concatenated log lines. -/
theorem logLines_append (a b : List Event) :
    logLines (a ++ b) = logLines a ++ logLines b := by
  induction a with
  | nil => rfl
  | cons e a ih =>
    cases e <;>
      simp only [List.cons_append, logLines, List.foldr_cons] at ih ⊢ <;>
      simp [ih]

/-- The waiting lines the polling loop of `centerPiezoXY` emits, one per
iteration, each already in split colon form. -/
theorem logLines_map_waiting (ws : List String) :
    logLines (ws.map (fun tw => Event.log (tw ++ ": Waiting for XZTPX to be ready.\n")))
      = ws.map (fun tw => tw ++ ": " ++ "Waiting for XZTPX to be ready." ++ "\n") := by
  induction ws with
  | nil => rfl
  | cons w ws ih =>
    rw [List.map_cons, logLines_cons_log, ih, List.map_cons]
    rw [show (": Waiting for XZTPX to be ready.\n" : String)
        = ": " ++ "Waiting for XZTPX to be ready." ++ "\n" from rfl]
    simp only [String.append_assoc]

/-- C4 (amended): every line the logging operations emit has the form
`<timestamp><sep> <message>\n`, where the separator `<sep>` is a
semicolon for `changeTomoRotate`, `changeSMRotate`,
`changeXYcombinedMode` and `changeXtoCombinedMode` (their source format
strings read `%s; ...`), and a colon for every other logging method:
`logCryoTemp`, `blockBeamBDA`, `openBeamBDA`, `changeXtoPiezolMode`,
`setXYcenter`, the lines of `centerPiezoXY` (preamble and per-iteration
waiting lines alike), `assignPosValToPVs` and `assignSinglePV`.  Each
conjunct exhibits the emitted lines literally in the split form. -/
theorem log_line_formats_amended (t : String) (temps : String → ℚ) (s : PVVals)
    (theta BDA : ℚ) (t1 t2 t3 : String) (x_rqs y_rqs xval yval : ℚ)
    (waitstamps : List String) (tn : ℕ → String) (pvstr : List String)
    (pvval : List ℚ) (pvstr1 : String) (pvval1 : ℚ) :
    logLines (logCryoTemp t temps) =
      [t ++ ": " ++ String.intercalate (", ")
        ((["CryoCon1:In_1", "CryoCon1:In_2", "CryoCon1:In_3",
           "CryoCon3:In_2", "CryoCon3:Loop_2"]).map
          (fun n => n ++ ": " ++ decFmt 2 (temps n))) ++ "\n"] ∧
    logLines (changeTomoRotate t s theta) =
      [t ++ "; " ++ ("Changing tomo rotation angle from to "
        ++ decFmt 2 (round2 s.tomo_rot_Act) ++ " to " ++ decFmt 2 theta) ++ "\n"] ∧
    logLines (changeSMRotate t s theta) =
      [t ++ "; " ++ ("Changing sample rotation angle from to "
        ++ decFmt 2 (round2 s.sm_rot_Act) ++ " to " ++ decFmt 2 theta) ++ "\n"] ∧
    logLines (blockBeamBDA t BDA) =
      [t ++ ": " ++ ("Move BDA to block position at: " ++ decFmt 3 (BDA - 500)) ++ "\n"] ∧
    logLines (openBeamBDA t BDA) =
      [t ++ ": " ++ ("Move BDA to open position at: " ++ decFmt 3 BDA) ++ "\n"] ∧
    logLines (changeXYcombinedMode t) =
      [t ++ "; " ++ "Changing XY scan mode to combined motion" ++ "\n"] ∧
    logLines (changeXtoCombinedMode t) =
      [t ++ "; " ++ "Changing XY scan mode to combined motion" ++ "\n"] ∧
    logLines (changeXtoPiezolMode t) =
      [t ++ ": " ++ "Changing X scan mode to Piezo only" ++ "\n"] ∧
    logLines (setXYcenter t1 t2 t3 x_rqs y_rqs) =
      [t1 ++ ": " ++ "Update the current position as the center ofthe scan." ++ "\n",
       t2 ++ ": " ++ ("X_center valute: " ++ decFmt 2 x_rqs ++ " ") ++ "\n",
       t3 ++ ": " ++ ("Y_center valute: " ++ decFmt 2 y_rqs ++ " ") ++ "\n"] ∧
    logLines (centerPiezoXY_logs t1 t2 t3 xval yval waitstamps) =
      [t1 ++ ": " ++ "Centering piezoX and piezoY." ++ "\n",
       t2 ++ ": " ++ ("Piezo xcenter value: " ++ decFmt 2 xval) ++ "\n",
       t3 ++ ": " ++ ("Piezo ycenter value: " ++ decFmt 2 yval) ++ "\n"]
        ++ waitstamps.map (fun tw => tw ++ ": " ++ "Waiting for XZTPX to be ready." ++ "\n") ∧
    (assignSinglePV t pvstr1 pvval1).2 =
      [t ++ ": " ++ ("Change " ++ pvstr1 ++ " to " ++ decFmt 3 pvval1) ++ "\n"] ∧
    (assignPosValToPVs tn pvstr pvval).2 =
      (pvstr.zip pvval).enum.map
        (fun p => tn p.1 ++ ": " ++ ("Change " ++ p.2.1 ++ " to " ++ decFmt 3 p.2.2) ++ "\n") := by
  refine ⟨rfl, ?_, ?_, ?_, ?_, ?_, ?_, ?_, ?_, ?_, ?_, ?_⟩
  · simp only [changeTomoRotate, logLines, List.foldr]
    rw [show ("; Changing tomo rotation angle from to " : String)
        = "; " ++ "Changing tomo rotation angle from to " from rfl]
    simp only [String.append_assoc]
  · simp only [changeSMRotate, logLines, List.foldr]
    rw [show ("; Changing sample rotation angle from to " : String)
        = "; " ++ "Changing sample rotation angle from to " from rfl]
    simp only [String.append_assoc]
  · simp only [blockBeamBDA, logLines, List.foldr]
    rw [show (": Move BDA to block position at: " : String)
        = ": " ++ "Move BDA to block position at: " from rfl]
    simp only [String.append_assoc]
  · simp only [openBeamBDA, logLines, List.foldr]
    rw [show (": Move BDA to open position at: " : String)
        = ": " ++ "Move BDA to open position at: " from rfl]
    simp only [String.append_assoc]
  · simp only [changeXYcombinedMode, logLines, List.foldr]
    rw [show ("; Changing XY scan mode to combined motion\n" : String)
        = "; " ++ "Changing XY scan mode to combined motion" ++ "\n" from rfl]
    simp only [String.append_assoc]
  · simp only [changeXtoCombinedMode, logLines, List.foldr]
    rw [show ("; Changing XY scan mode to combined motion\n" : String)
        = "; " ++ "Changing XY scan mode to combined motion" ++ "\n" from rfl]
    simp only [String.append_assoc]
  · simp only [changeXtoPiezolMode, logLines, List.foldr]
    rw [show (": Changing X scan mode to Piezo only\n" : String)
        = ": " ++ "Changing X scan mode to Piezo only" ++ "\n" from rfl]
    simp only [String.append_assoc]
  · simp only [setXYcenter, logLines, List.foldr]
    rw [show (": Update the current position as the center ofthe scan.\n" : String)
        = ": " ++ "Update the current position as the center ofthe scan." ++ "\n" from rfl,
      show (": X_center valute: " : String) = ": " ++ "X_center valute: " from rfl,
      show (": Y_center valute: " : String) = ": " ++ "Y_center valute: " from rfl,
      show (" \n" : String) = " " ++ "\n" from rfl]
    simp only [String.append_assoc]
  · simp only [centerPiezoXY_logs]
    rw [logLines_append, logLines_map_waiting]
    simp only [logLines, List.foldr]
    rw [show (": Centering piezoX and piezoY.\n" : String)
        = ": " ++ "Centering piezoX and piezoY." ++ "\n" from rfl,
      show (": Piezo xcenter value: " : String) = ": " ++ "Piezo xcenter value: " from rfl,
      show (": Piezo ycenter value: " : String) = ": " ++ "Piezo ycenter value: " from rfl]
    simp only [String.append_assoc]
  · simp only [assignSinglePV]
    rw [show (": Change " : String) = ": " ++ "Change " from rfl]
    simp only [String.append_assoc]
  · simp only [assignPosValToPVs]
    have hf : (fun p : ℕ × (String × ℚ) =>
          tn p.1 ++ ": Change " ++ p.2.1 ++ " to " ++ decFmt 3 p.2.2 ++ "\n")
        = (fun p : ℕ × (String × ℚ) =>
          tn p.1 ++ ": " ++ ("Change " ++ p.2.1 ++ " to " ++ decFmt 3 p.2.2) ++ "\n") := by
      funext p
      rw [show (": Change " : String) = ": " ++ "Change " from rfl]
      simp only [String.append_assoc]
    rw [hf]

/-- C8: each position getter returns the corresponding PV value rounded
to two decimal places: one hundred times the result is an integer, and
the result is within half of 0.01 of the raw PV value, for every value
the PV may hold. -/
theorem position_getters_round_two_decimals (s : PVVals) :
    ((∃ n : ℤ, getBDAx s * 100 = (n : ℚ)) ∧ |getBDAx s - s.BDA_pos| ≤ 1/200) ∧
    ((∃ n : ℤ, getSMAngle s * 100 = (n : ℚ)) ∧ |getSMAngle s - s.sm_rot_Act| ≤ 1/200) ∧
    ((∃ n : ℤ, getTomoAngle s * 100 = (n : ℚ)) ∧ |getTomoAngle s - s.tomo_rot_Act| ≤ 1/200) :=
  ⟨⟨⟨_, round2_mul_hundred _⟩, abs_round2_sub_le _⟩,
   ⟨⟨_, round2_mul_hundred _⟩, abs_round2_sub_le _⟩,
   ⟨⟨_, round2_mul_hundred _⟩, abs_round2_sub_le _⟩⟩

end pvComm
